import Mathlib

/-!
Shallow embedding of the blockifier entry-point execution pipeline
(crates/blockifier/src/execution/execution_utils.rs) and of the
visited-program-counter tracker (crates/blockifier/src/state/visited_pcs.rs),
together with theorems settling the specification claims about them.

Machine integers (usize) are modelled as Nat, isize as Int.  Field elements
are represented by their canonical natural-number value below the Stark prime.
Fallible Rust code returns Except; a Rust panic (expect / unwrap) is modelled
by a dedicated error constructor so that no panic is silently erased.
-/

namespace Blockifier

/-- The Stark field prime, the modulus shared by Felt and StarkFelt. -/
def PRIME : Nat := 2 ^ 251 + 17 * 2 ^ 192 + 1

theorem prime_pos : 0 < PRIME := by
  unfold PRIME
  positivity

/-- starknet_api StarkFelt: a field element kept in the range [0, PRIME). -/
abbrev StarkFelt := {n : Nat // n < PRIME}

/-- cairo_felt Felt: always reduced modulo PRIME. -/
abbrev Felt := {n : Nat // n < PRIME}

/-- Felt::from(usize): reduction modulo the prime. -/
def Felt.ofNat (n : Nat) : Felt := ⟨n % PRIME, Nat.mod_lt _ prime_pos⟩

/-- The number of binary digits of n, with enough fuel to cover any felt:
0 for 0, floor(log2 n) + 1 otherwise. -/
def natBitLength : Nat → Nat → Nat
  | 0, _ => 0
  | fuel + 1, n => if n = 0 then 0 else natBitLength fuel (n / 2) + 1

/-- FeltOps::bits from cairo_felt: the number of bits needed to represent the
value (num_bigint BigUint::bits semantics: 0 for 0, floor(log2 n) + 1 else). -/
def Felt.numBits (f : Felt) : Nat := natBitLength 256 f.val

/-- stark_felt_to_felt: Felt::from_bytes_be of the 32 canonical bytes, which
reduces the big-endian integer modulo the prime. -/
def stark_felt_to_felt (stark_felt : StarkFelt) : Felt :=
  ⟨stark_felt.val % PRIME, Nat.mod_lt _ prime_pos⟩

/-- felt_to_stark_felt before the expect: StarkFelt::try_from of the hex
rendering of the felt, which succeeds exactly when the value is in range.
The callers model the expect "Felt must be in StarkFelt range" on none. -/
def felt_to_stark_felt (felt : Felt) : Option StarkFelt :=
  if h : felt.val < PRIME then some ⟨felt.val, h⟩ else none

/-- cairo_vm Relocatable: a segment index (isize) and an offset (usize). -/
structure Relocatable where
  segment_index : Int
  offset : Nat
deriving DecidableEq

/-- cairo_vm MaybeRelocatable: either a field element or a pointer. -/
inductive MaybeRelocatable where
  | int (value : Felt)
  | rel (value : Relocatable)
deriving DecidableEq

/-- The cairo_vm error causes reached from this file. -/
inductive VirtualMachineError where
  | expectedInteger (v : MaybeRelocatable)
  | expectedRelocatable (v : MaybeRelocatable)
  | noneInMemoryRange
  | cantSubOffset
  | panicked (msg : String)
deriving DecidableEq

inductive MemoryError where
  | inconsistentMemory
deriving DecidableEq

inductive RunnerError where
  | invalidStopPointer (name : String)
  | noStopPointer (name : String)
deriving DecidableEq

/-- PostExecutionError: the security validation label, plus the wrapped
collaborator errors, plus a constructor modelling a Rust panic. -/
inductive PostExecutionError where
  | securityValidation (label : String)
  | vm (e : VirtualMachineError)
  | memory (e : MemoryError)
  | runner (e : RunnerError)
  | panic (msg : String)
deriving DecidableEq

/-- Relocatable + usize. -/
def Relocatable.add (r : Relocatable) (n : Nat) : Relocatable :=
  ⟨r.segment_index, r.offset + n⟩

/-- Relocatable::sub_usize: fails when the offset would go negative. -/
def Relocatable.sub_usize (r : Relocatable) (n : Nat) :
    Except VirtualMachineError Relocatable :=
  if n ≤ r.offset then .ok ⟨r.segment_index, r.offset - n⟩
  else .error .cantSubOffset

/-- Relocatable::try_from(&MaybeRelocatable). -/
def MaybeRelocatable.toRelocatable :
    MaybeRelocatable → Except VirtualMachineError Relocatable
  | .rel r => .ok r
  | .int v => .error (.expectedRelocatable (.int v))

/-- The machine memory: a write-once association of addresses to cells. -/
abbrev Memory := List (Relocatable × MaybeRelocatable)

def Memory.get (m : Memory) (r : Relocatable) : Option MaybeRelocatable :=
  (m.find? (fun p => decide (p.1 = r))).map (fun p => p.2)

/-- A single write: write-once semantics, rejecting an inconsistent rewrite. -/
def Memory.write (m : Memory) (r : Relocatable) (v : MaybeRelocatable) :
    Except MemoryError Memory :=
  match Memory.get m r with
  | none => .ok ((r, v) :: m)
  | some v0 => if v0 = v then .ok m else .error .inconsistentMemory

/-- VirtualMachine::load_data: writes the cells consecutively from base. -/
def Memory.load_data :
    Memory → Relocatable → List MaybeRelocatable → Nat → Except MemoryError Memory
  | m, _, [], _ => .ok m
  | m, base, v :: rest, i =>
    match Memory.write m (Relocatable.add base i) v with
    | .error e => .error e
    | .ok m1 => Memory.load_data m1 base rest (i + 1)

/-- A builtin runner: its name and the index of its own memory segment. -/
structure BuiltinRunner where
  name : String
  base : Nat
deriving DecidableEq

/-- BuiltinRunner::initial_stack for an included builtin: the single pointer
to the base of its segment. -/
def BuiltinRunner.initial_stack (b : BuiltinRunner) : List MaybeRelocatable :=
  [.rel ⟨(b.base : Int), 0⟩]

/-- The parts of cairo_vm VirtualMachine that the validated code touches:
the memory, the per-segment used sizes, the builtin runners in enumeration
order, and the number of allocated segments. -/
structure VirtualMachine where
  memory : Memory
  segment_used_sizes : List Nat
  builtin_runners : List BuiltinRunner
  segments_count : Nat

def VirtualMachine.get_segment_used_size (vm : VirtualMachine) (i : Nat) :
    Option Nat :=
  vm.segment_used_sizes.get? i

/-- The Rust `as usize` cast of an isize (wraps modulo 2^64). -/
def intAsUsize (i : Int) : Nat := (i % (2 : Int) ^ 64).toNat

/-- VirtualMachine::get_relocatable: the cell must exist and be a pointer. -/
def VirtualMachine.get_relocatable (vm : VirtualMachine) (r : Relocatable) :
    Except PostExecutionError Relocatable :=
  match Memory.get vm.memory r with
  | some (.rel s) => .ok s
  | some (.int v) => .error (.vm (.expectedRelocatable (.int v)))
  | none => .error (.vm .noneInMemoryRange)

/-- VirtualMachine::add_memory_segment: returns the fresh segment base. -/
def VirtualMachine.add_memory_segment (vm : VirtualMachine) :
    VirtualMachine × Relocatable :=
  ({ vm with segments_count := vm.segments_count + 1 },
   ⟨(vm.segments_count : Int), 0⟩)

/-- Modelled from the spec: BuiltinRunner::final_stack of the cairo_vm
collaborator (absent from src/): reads the stop pointer at pointer - 1,
checks that it points into the builtin segment at its used size, and
returns pointer - 1 as the boundary for the previous builtin region. -/
def BuiltinRunner.final_stack (b : BuiltinRunner) (vm : VirtualMachine)
    (pointer : Relocatable) :
    Except PostExecutionError (Relocatable × Relocatable) :=
  match Relocatable.sub_usize pointer 1 with
  | .error e => .error (.vm e)
  | .ok stop_ptr_addr =>
    match Memory.get vm.memory stop_ptr_addr with
    | some (.rel stop_ptr) =>
      if stop_ptr.segment_index = (b.base : Int) ∧
          some stop_ptr.offset = VirtualMachine.get_segment_used_size vm b.base
      then .ok (stop_ptr_addr, stop_ptr)
      else .error (.runner (.invalidStopPointer b.name))
    | _ => .error (.runner (.noStopPointer b.name))

/-- The Read-Only Segment Ledger: (start pointer, declared length) pairs. -/
structure ReadOnlySegments where
  segments : List (Relocatable × Nat)
deriving DecidableEq

/-- ReadOnlySegments::allocate: adds a memory segment, registers it in the
ledger, loads the data, and returns the start pointer. -/
def ReadOnlySegments.allocate (ros : ReadOnlySegments) (vm : VirtualMachine)
    (data : List MaybeRelocatable) :
    Except MemoryError (Relocatable × VirtualMachine × ReadOnlySegments) :=
  let (vm1, segment_start_ptr) := VirtualMachine.add_memory_segment vm
  let ros1 : ReadOnlySegments :=
    ⟨ros.segments ++ [(segment_start_ptr, data.length)]⟩
  match Memory.load_data vm1.memory segment_start_ptr data 0 with
  | .error e => .error e
  | .ok m => .ok (segment_start_ptr, { vm1 with memory := m }, ros1)

/-- The loop body of ReadOnlySegments::validate over the ledger entries. -/
def validate_segments (vm : VirtualMachine) :
    List (Relocatable × Nat) → Except PostExecutionError Unit
  | [] => .ok ()
  | (segment_start_ptr, segment_size) :: rest =>
    match VirtualMachine.get_segment_used_size vm
        (intAsUsize segment_start_ptr.segment_index) with
    | none => .error (.panic "Segments must contain the allocated read-only segment.")
    | some used_size =>
      if segment_size ≠ used_size then
        .error (.securityValidation "Read-only segments")
      else validate_segments vm rest

/-- ReadOnlySegments::validate: every ledger entry must have its declared
length equal to the used size recorded by the machine. -/
def ReadOnlySegments.validate (ros : ReadOnlySegments) (vm : VirtualMachine) :
    Except PostExecutionError Unit :=
  validate_segments vm ros.segments

/-- The syscall hint processor, reduced to the fields validate_run consumes:
the pointer its own bookkeeping last advanced to, and the ledger. -/
structure SyscallHintProcessor where
  expected_syscall_ptr : Relocatable
  read_only_segments : ReadOnlySegments
deriving DecidableEq

/-- Modelled from the spec: verify_syscall_ptr of the syscall collaborator
(absent from src/): the computed end pointer must match what the
collaborator itself last advanced to. -/
def SyscallHintProcessor.verify_syscall_ptr (sh : SyscallHintProcessor)
    (ptr : Relocatable) : Bool :=
  decide (ptr = sh.expected_syscall_ptr)

/-- The builtin loop of validate_run (lines 210-214): walks the builtin
runners in reverse enumeration order, each final_stack yielding the boundary
pointer of the previous region. -/
def final_stack_loop (vm : VirtualMachine) :
    Relocatable → List BuiltinRunner → Except PostExecutionError Relocatable
  | ptr, [] => .ok ptr
  | ptr, b :: rest =>
    match BuiltinRunner.final_stack b vm ptr with
    | .error e => .error e
    | .ok (next, _) => final_stack_loop vm next rest

/-- validate_run lines 225-232: the first implicit argument is the stored
syscall pointer and must sit at offset zero of its segment. -/
def check_syscall_start (implicit_args : List MaybeRelocatable) :
    Except PostExecutionError Relocatable :=
  match implicit_args.head? with
  | none => .error (.panic "Implicit args must not be empty.")
  | some mr =>
    match MaybeRelocatable.toRelocatable mr with
    | .error e => .error (.vm e)
    | .ok syscall_start_ptr =>
      if syscall_start_ptr.offset ≠ 0 then
        .error (.securityValidation "Syscall segment start")
      else .ok syscall_start_ptr

/-- validate_run lines 234-243: the end pointer read from memory at the
implicit-argument start slot must equal start plus the tracked used size. -/
def check_syscall_size (vm : VirtualMachine)
    (syscall_start_ptr implicit_args_start : Relocatable) :
    Except PostExecutionError Relocatable :=
  match VirtualMachine.get_relocatable vm implicit_args_start with
  | .error e => .error e
  | .ok syscall_end_ptr =>
    match VirtualMachine.get_segment_used_size vm
        (intAsUsize syscall_start_ptr.segment_index) with
    | none => .error (.panic "Segments must contain the syscall segment.")
    | some syscall_used_size =>
      if Relocatable.add syscall_start_ptr syscall_used_size ≠ syscall_end_ptr then
        .error (.securityValidation "Syscall segment size")
      else .ok syscall_end_ptr

/-- validate_run lines 245-248: the collaborator confirms the end pointer. -/
def check_syscall_end (sh : SyscallHintProcessor)
    (syscall_end_ptr : Relocatable) : Except PostExecutionError Unit :=
  if SyscallHintProcessor.verify_syscall_ptr sh syscall_end_ptr then .ok ()
  else .error (.securityValidation "Syscall segment end")

/-- validate_run after the syscall size check succeeded. -/
def validate_run_tail3 (vm : VirtualMachine) (sh : SyscallHintProcessor)
    (syscall_end_ptr : Relocatable) : Except PostExecutionError Unit :=
  match check_syscall_end sh syscall_end_ptr with
  | .error e => .error e
  | .ok _ => ReadOnlySegments.validate sh.read_only_segments vm

/-- validate_run after the syscall start check succeeded. -/
def validate_run_tail2 (vm : VirtualMachine) (sh : SyscallHintProcessor)
    (syscall_start_ptr implicit_args_start : Relocatable) :
    Except PostExecutionError Unit :=
  match check_syscall_size vm syscall_start_ptr implicit_args_start with
  | .error e => .error e
  | .ok syscall_end_ptr => validate_run_tail3 vm sh syscall_end_ptr

/-- validate_run after the implicit-argument bounds check succeeded. -/
def validate_run_tail (vm : VirtualMachine) (sh : SyscallHintProcessor)
    (implicit_args : List MaybeRelocatable) (implicit_args_start : Relocatable) :
    Except PostExecutionError Unit :=
  match check_syscall_start implicit_args with
  | .error e => .error e
  | .ok syscall_start_ptr =>
    validate_run_tail2 vm sh syscall_start_ptr implicit_args_start

/-- validate_run (lines 203-251): the six-step post-execution security
validation, in source order. -/
def validate_run (vm : VirtualMachine) (implicit_args : List MaybeRelocatable)
    (implicit_args_end : Relocatable) (sh : SyscallHintProcessor) :
    Except PostExecutionError Unit :=
  match final_stack_loop vm implicit_args_end vm.builtin_runners.reverse with
  | .error e => .error e
  | .ok current_builtin_ptr =>
    match Relocatable.sub_usize current_builtin_ptr 1 with
    | .error e => .error (.vm e)
    | .ok implicit_args_start =>
      if Relocatable.add implicit_args_start implicit_args.length ≠
          implicit_args_end then
        .error (.securityValidation "Implicit arguments\x27 segments")
      else validate_run_tail vm sh implicit_args implicit_args_start

/-- The walk of get_continuous_range over indices i, i+1, ... from base. -/
def get_continuous_range_go (m : Memory) (base : Relocatable) :
    Nat → Nat → Except VirtualMachineError (List MaybeRelocatable)
  | _, 0 => .ok []
  | i, n + 1 =>
    match Memory.get m (Relocatable.add base i) with
    | none => .error .noneInMemoryRange
    | some v =>
      match get_continuous_range_go m base (i + 1) n with
      | .error e => .error e
      | .ok rest => .ok (v :: rest)

/-- VirtualMachine::get_continuous_range: the cells at ptr .. ptr + size - 1,
failing when the base is not a pointer or the range has a gap. -/
def VirtualMachine.get_continuous_range (vm : VirtualMachine)
    (ptr : MaybeRelocatable) (size : Nat) :
    Except VirtualMachineError (List MaybeRelocatable) :=
  match ptr with
  | .rel base => get_continuous_range_go vm.memory base 0 size
  | .int v => .error (.expectedRelocatable (.int v))

/-- get_felt_from_memory_cell (lines 327-335): an integer cell decodes via
felt_to_stark_felt (whose expect is the panicked branch), a relocatable cell
is ExpectedInteger, an unset cell is NoneInMemoryRange. -/
def get_felt_from_memory_cell :
    Option MaybeRelocatable → Except VirtualMachineError StarkFelt
  | some (.int value) =>
    match felt_to_stark_felt value with
    | some stark_felt => .ok stark_felt
    | none => .error (.panicked "Felt must be in StarkFelt\x27s range.")
  | some relocatable => .error (.expectedInteger relocatable)
  | none => .error .noneInMemoryRange

/-- felt_range (lines 267-277): a contiguous range decoded cell by cell. -/
def felt_range (vm : VirtualMachine) (ptr : MaybeRelocatable) (size : Nat) :
    Except VirtualMachineError (List StarkFelt) :=
  match VirtualMachine.get_continuous_range vm ptr size with
  | .error e => .error e
  | .ok values => values.mapM (fun x => get_felt_from_memory_cell (some x))

/-- Retdata: the decoded return values of one call. -/
structure Retdata where
  val : List StarkFelt
deriving DecidableEq

/-- read_execution_retdata (lines 253-265).  Note that the source takes
`retdata_size.bits()` — the BIT LENGTH of the return-data length register —
as the number of cells to decode, not the integer value of the register. -/
def read_execution_retdata (vm : VirtualMachine)
    (retdata_size retdata_ptr : MaybeRelocatable) :
    Except PostExecutionError Retdata :=
  match retdata_size with
  | .int v =>
    match felt_range vm retdata_ptr (Felt.numBits v) with
    | .error e => .error (.vm e)
    | .ok values => .ok ⟨values⟩
  | .rel r => .error (.vm (.expectedInteger (.rel r)))

/-- CallEntryPoint, reduced to the fields prepare_call_arguments consumes. -/
structure CallEntryPoint where
  entry_point_selector : StarkFelt
  calldata : List StarkFelt
  storage_address : Nat
  caller_address : Nat
deriving DecidableEq

/-- One entry of the dynamically typed Args vector (Vec of Box of dyn Any):
either a single machine value or a sequence of machine values. -/
inductive Arg where
  | single (v : MaybeRelocatable)
  | seq (vs : List MaybeRelocatable)
deriving DecidableEq

abbrev Args := List Arg

/-- prepare_call_arguments (lines 88-121): the selector, the implicit
arguments (syscall pointer then the builtin initial stacks in enumeration
order), the calldata length, and the pointer to the freshly allocated
read-only calldata segment, in this exact order. -/
def prepare_call_arguments (call_entry_point : CallEntryPoint)
    (vm : VirtualMachine) (initial_syscall_ptr : Relocatable)
    (read_only_segments : ReadOnlySegments) :
    Except MemoryError
      (List MaybeRelocatable × Args × VirtualMachine × ReadOnlySegments) :=
  let entry_point_selector : MaybeRelocatable :=
    .int (stark_felt_to_felt call_entry_point.entry_point_selector)
  let implicit_args : List MaybeRelocatable :=
    .rel initial_syscall_ptr ::
      vm.builtin_runners.flatMap BuiltinRunner.initial_stack
  let calldata : List MaybeRelocatable :=
    call_entry_point.calldata.map (fun arg => .int (stark_felt_to_felt arg))
  match ReadOnlySegments.allocate read_only_segments vm calldata with
  | .error e => .error e
  | .ok (calldata_start_ptr, vm1, ros1) =>
    .ok (implicit_args,
      [Arg.single entry_point_selector,
       Arg.seq implicit_args,
       Arg.single (.int (Felt.ofNat calldata.length)),
       Arg.single (.rel calldata_start_ptr)],
      vm1, ros1)

/-- starknet_api ClassHash. -/
abbrev ClassHash := Nat

/-- starknet_api ContractAddress. -/
abbrev ContractAddress := Nat

/-- VisitedPcsSet (visited_pcs.rs lines 22-43): one deduplicated set of
program counters per class; the map is total with default empty set. -/
structure VisitedPcsSet where
  pcs : ClassHash → Finset Nat

def VisitedPcsSet.empty : VisitedPcsSet := ⟨fun _ => ∅⟩

/-- VisitedPcsSet::insert: entry(class_hash).or_default().extend(pcs). -/
def VisitedPcsSet.insert (m : VisitedPcsSet) (class_hash : ClassHash)
    (pcs : List Nat) : VisitedPcsSet :=
  ⟨fun c => if c = class_hash then m.pcs c ∪ pcs.toFinset else m.pcs c⟩

/-- The lookup of one class collection (HashMap lookup, default empty). -/
def VisitedPcsSet.get (m : VisitedPcsSet) (class_hash : ClassHash) :
    Finset Nat :=
  m.pcs class_hash

/-- VisitedPcsRaw (visited_pcs.rs lines 53-77): one list of per-call batches
per class; insert pushes the batch unmodified. -/
structure VisitedPcsRaw where
  pcs : ClassHash → List (List Nat)

def VisitedPcsRaw.insert (m : VisitedPcsRaw) (class_hash : ClassHash)
    (pcs : List Nat) : VisitedPcsRaw :=
  ⟨fun c => if c = class_hash then m.pcs c ++ [pcs] else m.pcs c⟩

/-- A contract class, reduced to what context initialization consumes:
the selector-to-pc entry point table and whether the program converts. -/
structure ContractClass where
  entry_points : List (StarkFelt × Nat)
  program_valid : Bool

/-- The state store interface (state_api, absent from src/): class-hash to
contract-class bindings and address to class-hash bindings. -/
structure State where
  contract_classes : ClassHash → Option ContractClass
  class_hash_at : ContractAddress → Option ClassHash

/-- Modelled from the spec: State::set_class_hash_at of the state-store
collaborator (absent from src/): registers the address-to-class binding. -/
def State.set_class_hash_at (s : State) (address : ContractAddress)
    (class_hash : ClassHash) : State :=
  { s with class_hash_at :=
      fun a => if a = address then some class_hash else s.class_hash_at a }

/-- State::get_class_hash_at: the read the constructor may perform. -/
def State.get_class_hash_at (s : State) (address : ContractAddress) :
    Option ClassHash :=
  s.class_hash_at address

/-- execute_deployment (lines 381-402): registers the address-to-class
binding in the state store, then runs the constructor through the
entry-point pipeline.  execute_constructor_entry_point lives outside src/
and is passed here as the abstract pipeline it invokes. -/
def execute_deployment {α : Type}
    (execute_constructor_entry_point :
      State → ClassHash → ContractAddress → ContractAddress →
        List StarkFelt → α)
    (state : State) (class_hash : ClassHash)
    (deployed_contract_address deployer_address : ContractAddress)
    (constructor_calldata : List StarkFelt) : α :=
  let state1 :=
    State.set_class_hash_at state deployed_contract_address class_hash
  execute_constructor_entry_point state1 class_hash
    deployed_contract_address deployer_address constructor_calldata

/-- The resolution errors of context initialization. -/
inductive PreExecutionError where
  | classNotFound (class_hash : ClassHash)
  | entryPointNotFound
  | duplicateEntryPoint
  | programConversion
deriving DecidableEq

/-- Modelled from the spec: CallEntryPoint::resolve_entry_point_pc (absent
from src/): the unique entry of the class table matching the selector. -/
def resolve_entry_point_pc (cep : CallEntryPoint) (cls : ContractClass) :
    Except PreExecutionError Nat :=
  match cls.entry_points.filter
      (fun ep => decide (ep.1 = cep.entry_point_selector)) with
  | [] => .error .entryPointNotFound
  | [ep] => .ok ep.2
  | _ => .error .duplicateEntryPoint

/-- The builtin names enabled by CairoRunner::new with layout "all". -/
def all_builtin_names : List String :=
  ["output", "pedersen", "range_check", "ecdsa", "bitwise"]

def make_builtin_runners : List String → Nat → List BuiltinRunner
  | [], _ => []
  | n :: rest, base => ⟨n, base⟩ :: make_builtin_runners rest (base + 1)

/-- Modelled from the spec: the machine produced by CairoRunner::new,
initialize_builtins and initialize_segments (cairo_vm collaborator, absent
from src/): the program and execution segments plus one segment per
builtin, empty memory, all builtin runners enabled. -/
def new_vm : VirtualMachine :=
  { memory := []
    segment_used_sizes := []
    builtin_runners := make_builtin_runners all_builtin_names 2
    segments_count := 2 + all_builtin_names.length }

/-- The execution context produced by the builder for one call. -/
structure ExecutionContext where
  vm : VirtualMachine
  syscall_handler : SyscallHintProcessor
  initial_syscall_ptr : Relocatable
  entry_point_pc : Nat

/-- SyscallHintProcessor::new at the initial syscall pointer. -/
def SyscallHintProcessor.new (initial_syscall_ptr : Relocatable) :
    SyscallHintProcessor :=
  ⟨initial_syscall_ptr, ⟨[]⟩⟩

/-- initialize_execution_context (lines 55-86): resolves the class and the
entry point, builds the fresh machine, and allocates the fresh syscall
segment.  The state store is threaded through explicitly; the source only
ever reads from it (get_contract_class). -/
def initialize_execution_context (call_entry_point : CallEntryPoint)
    (class_hash : ClassHash) (state : State) :
    Except PreExecutionError ExecutionContext × State :=
  match state.contract_classes class_hash with
  | none => (.error (.classNotFound class_hash), state)
  | some contract_class =>
    match resolve_entry_point_pc call_entry_point contract_class with
    | .error e => (.error e, state)
    | .ok entry_point_pc =>
      if contract_class.program_valid then
        let (vm1, initial_syscall_ptr) :=
          VirtualMachine.add_memory_segment new_vm
        (.ok { vm := vm1
               syscall_handler := SyscallHintProcessor.new initial_syscall_ptr
               initial_syscall_ptr := initial_syscall_ptr
               entry_point_pc := entry_point_pc }, state)
      else (.error .programConversion, state)

/-! Helper lemmas: each validator stage can only produce its own security
validation label.  These drive the only-if directions of the claims. -/

theorem check_syscall_start_label (implicit_args : List MaybeRelocatable)
    (l : String)
    (h : check_syscall_start implicit_args = .error (.securityValidation l)) :
    l = "Syscall segment start" := by
  unfold check_syscall_start at h
  split at h
  · simp at h
  · split at h
    · simp at h
    · split at h
      · simp_all
      · simp at h

theorem check_syscall_size_label (vm : VirtualMachine)
    (s p : Relocatable) (l : String)
    (h : check_syscall_size vm s p = .error (.securityValidation l)) :
    l = "Syscall segment size" := by
  unfold check_syscall_size at h
  split at h
  · rename_i e heq
    unfold VirtualMachine.get_relocatable at heq
    split at heq <;> simp_all
  · split at h
    · simp at h
    · split at h
      · simp_all
      · simp at h

theorem check_syscall_end_label (sh : SyscallHintProcessor)
    (e : Relocatable) (l : String)
    (h : check_syscall_end sh e = .error (.securityValidation l)) :
    l = "Syscall segment end" := by
  unfold check_syscall_end at h
  split at h
  · simp at h
  · simp_all

theorem validate_segments_label (vm : VirtualMachine)
    (segs : List (Relocatable × Nat)) (l : String)
    (h : validate_segments vm segs = .error (.securityValidation l)) :
    l = "Read-only segments" := by
  induction segs with
  | nil => simp [validate_segments] at h
  | cons hd tl ih =>
    unfold validate_segments at h
    split at h
    · simp at h
    · split at h
      · simp_all
      · exact ih h

theorem validate_run_tail3_label (vm : VirtualMachine)
    (sh : SyscallHintProcessor) (e : Relocatable) (l : String)
    (h : validate_run_tail3 vm sh e = .error (.securityValidation l)) :
    l = "Syscall segment end" ∨ l = "Read-only segments" := by
  unfold validate_run_tail3 at h
  cases hc : check_syscall_end sh e with
  | error e2 =>
    rw [hc] at h
    simp at h
    subst h
    exact Or.inl (check_syscall_end_label sh e l hc)
  | ok u =>
    rw [hc] at h
    simp at h
    exact Or.inr (validate_segments_label vm sh.read_only_segments.segments l h)

theorem validate_run_tail2_label (vm : VirtualMachine)
    (sh : SyscallHintProcessor) (s p : Relocatable) (l : String)
    (h : validate_run_tail2 vm sh s p = .error (.securityValidation l)) :
    l = "Syscall segment size" ∨ l = "Syscall segment end" ∨
      l = "Read-only segments" := by
  unfold validate_run_tail2 at h
  cases hc : check_syscall_size vm s p with
  | error e2 =>
    rw [hc] at h
    simp at h
    subst h
    exact Or.inl (check_syscall_size_label vm s p l hc)
  | ok e =>
    rw [hc] at h
    simp at h
    exact Or.inr (validate_run_tail3_label vm sh e l h)

theorem validate_run_tail_label (vm : VirtualMachine)
    (sh : SyscallHintProcessor) (implicit_args : List MaybeRelocatable)
    (p : Relocatable) (l : String)
    (h : validate_run_tail vm sh implicit_args p =
      .error (.securityValidation l)) :
    l = "Syscall segment start" ∨ l = "Syscall segment size" ∨
      l = "Syscall segment end" ∨ l = "Read-only segments" := by
  unfold validate_run_tail at h
  cases hc : check_syscall_start implicit_args with
  | error e2 =>
    rw [hc] at h
    simp at h
    subst h
    exact Or.inl (check_syscall_start_label implicit_args l hc)
  | ok s =>
    rw [hc] at h
    simp at h
    exact Or.inr (validate_run_tail2_label vm sh s p l h)

/-! Reduction lemmas for the validator stages. -/

theorem validate_run_eq (vm : VirtualMachine)
    (implicit_args : List MaybeRelocatable) (implicit_args_end : Relocatable)
    (sh : SyscallHintProcessor) (p implicit_args_start : Relocatable)
    (hwalk : final_stack_loop vm implicit_args_end
      vm.builtin_runners.reverse = .ok p)
    (hsub : Relocatable.sub_usize p 1 = .ok implicit_args_start) :
    validate_run vm implicit_args implicit_args_end sh =
      if Relocatable.add implicit_args_start implicit_args.length ≠
          implicit_args_end then
        .error (.securityValidation "Implicit arguments\x27 segments")
      else validate_run_tail vm sh implicit_args implicit_args_start := by
  unfold validate_run
  simp only [hwalk, hsub]

theorem check_syscall_start_eq_ok (implicit_args : List MaybeRelocatable)
    (r : Relocatable) (hhead : implicit_args.head? = some (.rel r))
    (ho : r.offset = 0) :
    check_syscall_start implicit_args = .ok r := by
  unfold check_syscall_start
  rw [hhead]
  simp [MaybeRelocatable.toRelocatable, ho]

theorem check_syscall_start_eq_err (implicit_args : List MaybeRelocatable)
    (r : Relocatable) (hhead : implicit_args.head? = some (.rel r))
    (ho : r.offset ≠ 0) :
    check_syscall_start implicit_args =
      .error (.securityValidation "Syscall segment start") := by
  unfold check_syscall_start
  rw [hhead]
  simp [MaybeRelocatable.toRelocatable, ho]

theorem check_syscall_size_eq (vm : VirtualMachine)
    (r implicit_args_start e : Relocatable) (u : Nat)
    (hget : VirtualMachine.get_relocatable vm implicit_args_start = .ok e)
    (hused : VirtualMachine.get_segment_used_size vm
      (intAsUsize r.segment_index) = some u) :
    check_syscall_size vm r implicit_args_start =
      if Relocatable.add r u ≠ e then
        .error (.securityValidation "Syscall segment size")
      else .ok e := by
  unfold check_syscall_size
  simp only [hget, hused]

/-- Claim C1: validate_run fails with the security validation error labeled
"Implicit arguments segments" if and only if the pointer reached after
stepping back across all builtin final stacks, minus one, plus the number
of implicit arguments does not equal the implicit-argument end pointer;
the check passes exactly when implicit_args_start + implicit_args.len()
equals implicit_args_end. -/
theorem validate_run_implicit_args_bounds (vm : VirtualMachine)
    (implicit_args : List MaybeRelocatable) (implicit_args_end : Relocatable)
    (sh : SyscallHintProcessor) (p implicit_args_start : Relocatable)
    (hwalk : final_stack_loop vm implicit_args_end
      vm.builtin_runners.reverse = .ok p)
    (hsub : Relocatable.sub_usize p 1 = .ok implicit_args_start) :
    (validate_run vm implicit_args implicit_args_end sh =
        .error (.securityValidation "Implicit arguments\x27 segments")) ↔
      Relocatable.add implicit_args_start implicit_args.length ≠
        implicit_args_end := by
  rw [validate_run_eq vm implicit_args implicit_args_end sh p
    implicit_args_start hwalk hsub]
  by_cases hc : Relocatable.add implicit_args_start implicit_args.length =
      implicit_args_end
  · rw [if_neg (not_not_intro hc)]
    constructor
    · intro h
      rcases validate_run_tail_label vm sh implicit_args
          implicit_args_start _ h with h1 | h1 | h1 | h1 <;>
        exact absurd h1 (by decide)
    · intro hne
      exact absurd hc hne
  · rw [if_pos hc]
    exact ⟨fun _ => hc, fun _ => rfl⟩

def c1vm : VirtualMachine :=
  { memory := [], segment_used_sizes := [], builtin_runners := []
    segments_count := 0 }

def c1args : List MaybeRelocatable := [.rel ⟨3, 0⟩]

def c1sh : SyscallHintProcessor := ⟨⟨3, 0⟩, ⟨[]⟩⟩

theorem validate_run_implicit_args_bounds_witness :
    (final_stack_loop c1vm ⟨1, 5⟩ c1vm.builtin_runners.reverse =
      .ok ⟨1, 5⟩) ∧
    (Relocatable.sub_usize ⟨1, 5⟩ 1 = .ok ⟨1, 4⟩) ∧
    ((validate_run c1vm c1args ⟨1, 5⟩ c1sh =
        .error (.securityValidation "Implicit arguments\x27 segments")) ↔
      Relocatable.add ⟨1, 4⟩ c1args.length ≠ (⟨1, 5⟩ : Relocatable)) :=
  ⟨rfl, rfl,
    validate_run_implicit_args_bounds c1vm c1args ⟨1, 5⟩ c1sh ⟨1, 5⟩ ⟨1, 4⟩
      rfl rfl⟩

/-- Claim C2: when the builtin-stack walk and the implicit-argument bounds
check pass, validate_run fails with the security validation error labeled
"Syscall segment start" if and only if the first implicit argument, the
stored syscall pointer, has a nonzero offset within its segment. -/
theorem validate_run_syscall_start_check (vm : VirtualMachine)
    (implicit_args : List MaybeRelocatable) (implicit_args_end : Relocatable)
    (sh : SyscallHintProcessor) (p implicit_args_start r : Relocatable)
    (hwalk : final_stack_loop vm implicit_args_end
      vm.builtin_runners.reverse = .ok p)
    (hsub : Relocatable.sub_usize p 1 = .ok implicit_args_start)
    (hbounds : Relocatable.add implicit_args_start implicit_args.length =
      implicit_args_end)
    (hhead : implicit_args.head? = some (.rel r)) :
    (validate_run vm implicit_args implicit_args_end sh =
        .error (.securityValidation "Syscall segment start")) ↔
      r.offset ≠ 0 := by
  rw [validate_run_eq vm implicit_args implicit_args_end sh p
    implicit_args_start hwalk hsub, if_neg (not_not_intro hbounds)]
  unfold validate_run_tail
  by_cases ho : r.offset = 0
  · rw [check_syscall_start_eq_ok implicit_args r hhead ho]
    constructor
    · intro h
      rcases validate_run_tail2_label vm sh r implicit_args_start _ h with
        h1 | h1 | h1 <;> exact absurd h1 (by decide)
    · intro hne
      exact absurd ho hne
  · rw [check_syscall_start_eq_err implicit_args r hhead ho]
    exact ⟨fun _ => ho, fun _ => rfl⟩

def c2vm : VirtualMachine :=
  { memory := [], segment_used_sizes := [], builtin_runners := []
    segments_count := 0 }

def c2args : List MaybeRelocatable := [.rel ⟨3, 7⟩]

def c2sh : SyscallHintProcessor := ⟨⟨3, 0⟩, ⟨[]⟩⟩

theorem validate_run_syscall_start_check_witness :
    (final_stack_loop c2vm ⟨1, 5⟩ c2vm.builtin_runners.reverse =
      .ok ⟨1, 5⟩) ∧
    (Relocatable.sub_usize ⟨1, 5⟩ 1 = .ok ⟨1, 4⟩) ∧
    (Relocatable.add ⟨1, 4⟩ c2args.length = (⟨1, 5⟩ : Relocatable)) ∧
    (c2args.head? = some (.rel ⟨3, 7⟩)) ∧
    ((validate_run c2vm c2args ⟨1, 5⟩ c2sh =
        .error (.securityValidation "Syscall segment start")) ↔
      (⟨3, 7⟩ : Relocatable).offset ≠ 0) :=
  ⟨rfl, rfl, rfl, rfl,
    validate_run_syscall_start_check c2vm c2args ⟨1, 5⟩ c2sh ⟨1, 5⟩ ⟨1, 4⟩
      ⟨3, 7⟩ rfl rfl rfl rfl⟩

/-- Claim C3: when the builtin-stack walk, the implicit-argument bounds
check and the syscall start check pass, validate_run fails with the
security validation error labeled "Syscall segment size" if and only if the
end pointer read from memory at the implicit-argument start slot differs
from the syscall start pointer plus the tracked used size of its segment. -/
theorem validate_run_syscall_size_check (vm : VirtualMachine)
    (implicit_args : List MaybeRelocatable) (implicit_args_end : Relocatable)
    (sh : SyscallHintProcessor) (p implicit_args_start r e : Relocatable)
    (u : Nat)
    (hwalk : final_stack_loop vm implicit_args_end
      vm.builtin_runners.reverse = .ok p)
    (hsub : Relocatable.sub_usize p 1 = .ok implicit_args_start)
    (hbounds : Relocatable.add implicit_args_start implicit_args.length =
      implicit_args_end)
    (hhead : implicit_args.head? = some (.rel r))
    (ho : r.offset = 0)
    (hget : VirtualMachine.get_relocatable vm implicit_args_start = .ok e)
    (hused : VirtualMachine.get_segment_used_size vm
      (intAsUsize r.segment_index) = some u) :
    (validate_run vm implicit_args implicit_args_end sh =
        .error (.securityValidation "Syscall segment size")) ↔
      Relocatable.add r u ≠ e := by
  rw [validate_run_eq vm implicit_args implicit_args_end sh p
    implicit_args_start hwalk hsub, if_neg (not_not_intro hbounds)]
  unfold validate_run_tail
  rw [check_syscall_start_eq_ok implicit_args r hhead ho]
  show (validate_run_tail2 vm sh r implicit_args_start = _) ↔ _
  unfold validate_run_tail2
  rw [check_syscall_size_eq vm r implicit_args_start e u hget hused]
  by_cases hc : Relocatable.add r u = e
  · rw [if_neg (not_not_intro hc)]
    constructor
    · intro h
      rcases validate_run_tail3_label vm sh e _ h with h1 | h1 <;>
        exact absurd h1 (by decide)
    · intro hne
      exact absurd hc hne
  · rw [if_pos hc]
    exact ⟨fun _ => hc, fun _ => rfl⟩

def c3vm : VirtualMachine :=
  { memory := [(⟨1, 4⟩, .rel ⟨3, 2⟩)], segment_used_sizes := [0, 0, 0, 2]
    builtin_runners := [], segments_count := 4 }

def c3args : List MaybeRelocatable := [.rel ⟨3, 0⟩]

def c3sh : SyscallHintProcessor := ⟨⟨3, 2⟩, ⟨[]⟩⟩

theorem validate_run_syscall_size_check_witness :
    (final_stack_loop c3vm ⟨1, 5⟩ c3vm.builtin_runners.reverse =
      .ok ⟨1, 5⟩) ∧
    (Relocatable.sub_usize ⟨1, 5⟩ 1 = .ok ⟨1, 4⟩) ∧
    (Relocatable.add ⟨1, 4⟩ c3args.length = (⟨1, 5⟩ : Relocatable)) ∧
    (c3args.head? = some (.rel ⟨3, 0⟩)) ∧
    ((⟨3, 0⟩ : Relocatable).offset = 0) ∧
    (VirtualMachine.get_relocatable c3vm ⟨1, 4⟩ = .ok ⟨3, 2⟩) ∧
    (VirtualMachine.get_segment_used_size c3vm
      (intAsUsize (⟨3, 0⟩ : Relocatable).segment_index) = some 2) ∧
    ((validate_run c3vm c3args ⟨1, 5⟩ c3sh =
        .error (.securityValidation "Syscall segment size")) ↔
      Relocatable.add ⟨3, 0⟩ 2 ≠ (⟨3, 2⟩ : Relocatable)) :=
  ⟨rfl, rfl, rfl, rfl, rfl, rfl, rfl,
    validate_run_syscall_size_check c3vm c3args ⟨1, 5⟩ c3sh ⟨1, 5⟩ ⟨1, 4⟩
      ⟨3, 0⟩ ⟨3, 2⟩ 2 rfl rfl rfl rfl rfl rfl rfl⟩

theorem validate_segments_ok_iff (vm : VirtualMachine)
    (segs : List (Relocatable × Nat)) :
    (validate_segments vm segs = .ok ()) ↔
      ∀ q ∈ segs, VirtualMachine.get_segment_used_size vm
        (intAsUsize q.1.segment_index) = some q.2 := by
  induction segs with
  | nil => simp [validate_segments]
  | cons hd tl ih =>
    rcases hd with ⟨sp, sz⟩
    unfold validate_segments
    cases hu : VirtualMachine.get_segment_used_size vm
        (intAsUsize sp.segment_index) with
    | none =>
      simp only [hu]
      constructor
      · intro h
        exact Except.noConfusion h
      · intro hall
        have hh := hall (sp, sz) (List.mem_cons_self _ _)
        rw [hu] at hh
        exact Option.noConfusion hh
    | some u =>
      simp only [hu]
      by_cases hc : sz = u
      · subst hc
        rw [if_neg (not_not_intro rfl)]
        constructor
        · intro h q hq
          rcases List.mem_cons.mp hq with hq1 | hq2
          · subst hq1
            exact hu
          · exact (ih.mp h) q hq2
        · intro hall
          exact ih.mpr (fun q hq => hall q (List.mem_cons_of_mem _ hq))
      · rw [if_pos hc]
        constructor
        · intro h
          exact Except.noConfusion h
        · intro hall
          have hh := hall (sp, sz) (List.mem_cons_self _ _)
          rw [hu] at hh
          exact absurd (Option.some.inj hh).symm hc

theorem validate_segments_err_iff (vm : VirtualMachine)
    (segs : List (Relocatable × Nat))
    (htracked : ∀ q ∈ segs, (VirtualMachine.get_segment_used_size vm
      (intAsUsize q.1.segment_index)).isSome) :
    (validate_segments vm segs =
        .error (.securityValidation "Read-only segments")) ↔
      ∃ q ∈ segs, VirtualMachine.get_segment_used_size vm
        (intAsUsize q.1.segment_index) ≠ some q.2 := by
  induction segs with
  | nil => simp [validate_segments]
  | cons hd tl ih =>
    rcases hd with ⟨sp, sz⟩
    have ih2 := ih (fun q hq => htracked q (List.mem_cons_of_mem _ hq))
    obtain ⟨u, hu⟩ := Option.isSome_iff_exists.mp
      (htracked (sp, sz) (List.mem_cons_self _ _))
    unfold validate_segments
    simp only [hu]
    by_cases hc : sz = u
    · subst hc
      rw [if_neg (not_not_intro rfl)]
      constructor
      · intro h
        obtain ⟨q, hq, hne⟩ := ih2.mp h
        exact ⟨q, List.mem_cons_of_mem _ hq, hne⟩
      · rintro ⟨q, hq, hne⟩
        rcases List.mem_cons.mp hq with hq1 | hq2
        · subst hq1
          exact absurd hu hne
        · exact ih2.mpr ⟨q, hq2, hne⟩
    · rw [if_pos hc]
      constructor
      · intro _
        refine ⟨(sp, sz), List.mem_cons_self _ _, ?_⟩
        rw [hu]
        intro h2
        exact hc (Option.some.inj h2).symm
      · intro _
        rfl

/-- Claim C4: ReadOnlySegments::validate fails with the security validation
error labeled "Read-only segments" if and only if some ledger entry has the
machine recorded used size different from its declared length, and succeeds
exactly when every entry used size equals its declared length (assuming the
machine tracks every ledgered segment, i.e. the source expect cannot fire). -/
theorem read_only_segments_validate_spec (ros : ReadOnlySegments)
    (vm : VirtualMachine)
    (htracked : ∀ q ∈ ros.segments, (VirtualMachine.get_segment_used_size vm
      (intAsUsize q.1.segment_index)).isSome) :
    ((ReadOnlySegments.validate ros vm =
        .error (.securityValidation "Read-only segments")) ↔
      ∃ q ∈ ros.segments, VirtualMachine.get_segment_used_size vm
        (intAsUsize q.1.segment_index) ≠ some q.2) ∧
    ((ReadOnlySegments.validate ros vm = .ok ()) ↔
      ∀ q ∈ ros.segments, VirtualMachine.get_segment_used_size vm
        (intAsUsize q.1.segment_index) = some q.2) :=
  ⟨validate_segments_err_iff vm ros.segments htracked,
   validate_segments_ok_iff vm ros.segments⟩

def c4vm : VirtualMachine :=
  { memory := [], segment_used_sizes := [3, 4], builtin_runners := []
    segments_count := 2 }

def c4ros : ReadOnlySegments := ⟨[(⟨0, 0⟩, 3), (⟨1, 0⟩, 5)]⟩

theorem read_only_segments_validate_spec_witness :
    (∀ q ∈ c4ros.segments, (VirtualMachine.get_segment_used_size c4vm
      (intAsUsize q.1.segment_index)).isSome) ∧
    (((ReadOnlySegments.validate c4ros c4vm =
        .error (.securityValidation "Read-only segments")) ↔
      ∃ q ∈ c4ros.segments, VirtualMachine.get_segment_used_size c4vm
        (intAsUsize q.1.segment_index) ≠ some q.2) ∧
    ((ReadOnlySegments.validate c4ros c4vm = .ok ()) ↔
      ∀ q ∈ c4ros.segments, VirtualMachine.get_segment_used_size c4vm
        (intAsUsize q.1.segment_index) = some q.2)) :=
  ⟨by decide, read_only_segments_validate_spec c4ros c4vm (by decide)⟩

def c5vm : VirtualMachine :=
  { memory := [(⟨2, 0⟩, .int (Felt.ofNat 7)), (⟨2, 1⟩, .int (Felt.ofNat 8)),
      (⟨2, 2⟩, .int (Felt.ofNat 9))]
    segment_used_sizes := [], builtin_runners := [], segments_count := 3 }

/-- Claim C5 is refuted by the source: read_execution_retdata decodes
numBits(retdata_size) cells — the BIT LENGTH of the length register — not
its integer value.  With the register holding 3 and three integer cells
7, 8, 9 at the return-data pointer, it decodes numBits 3 = 2 cells and
returns [7, 8] instead of the [7, 8, 9] the register value asks for. -/
theorem read_execution_retdata_bits_bug :
    read_execution_retdata c5vm (.int (Felt.ofNat 3)) (.rel ⟨2, 0⟩) =
      .ok ⟨[Felt.ofNat 7, Felt.ofNat 8]⟩ ∧
    Felt.numBits (Felt.ofNat 3) = 2 ∧ (Felt.ofNat 3).val = 3 :=
  ⟨rfl, rfl, rfl⟩

theorem Memory.get_none_of_forall (m : Memory) (r : Relocatable)
    (h : ∀ p ∈ m, p.1 ≠ r) : Memory.get m r = none := by
  unfold Memory.get
  rw [List.find?_eq_none.mpr]
  · rfl
  · intro p hp
    simp [h p hp]

theorem Memory.write_fresh (m : Memory) (r : Relocatable)
    (v : MaybeRelocatable) (hget : Memory.get m r = none) :
    Memory.write m r v = .ok ((r, v) :: m) := by
  unfold Memory.write
  rw [hget]

/-- Loading data into a segment with no previously written cell at or past
the write window always succeeds. -/
theorem load_data_ok (data : List MaybeRelocatable) (m : Memory)
    (base : Relocatable) (i : Nat)
    (h : ∀ p ∈ m, p.1.segment_index ≠ base.segment_index ∨
      p.1.offset < base.offset + i) :
    ∃ m2, Memory.load_data m base data i = .ok m2 := by
  induction data generalizing m i with
  | nil => exact ⟨m, rfl⟩
  | cons v rest ih =>
    have hget : Memory.get m (Relocatable.add base i) = none := by
      apply Memory.get_none_of_forall
      intro p hp heq
      rcases h p hp with h1 | h1
      · exact h1 (by rw [heq]; simp [Relocatable.add])
      · rw [heq] at h1
        exact absurd h1 (by simp [Relocatable.add])
    unfold Memory.load_data
    rw [Memory.write_fresh m (Relocatable.add base i) v hget]
    refine ih ((Relocatable.add base i, v) :: m) (i + 1) ?_
    intro p hp
    rcases List.mem_cons.mp hp with h1 | h1
    · subst h1
      exact Or.inr (by simp [Relocatable.add])
    · rcases h p h1 with h2 | h2
      · exact Or.inl h2
      · exact Or.inr (Nat.lt_succ_of_lt h2)

/-- Claim C6: prepare_call_arguments builds the machine input vector in
exactly the order selector, implicit arguments (syscall pointer then each
builtin initial stack in enumeration order), calldata length, pointer to
the freshly allocated read-only calldata segment; and that segment is
registered in the ledger, with its start pointer and length, in the
returned ledger. -/
theorem prepare_call_arguments_spec (call_entry_point : CallEntryPoint)
    (vm : VirtualMachine) (initial_syscall_ptr : Relocatable)
    (ros : ReadOnlySegments)
    (hwf : ∀ p ∈ vm.memory,
      p.1.segment_index ≠ (vm.segments_count : Int)) :
    ∃ vm1, prepare_call_arguments call_entry_point vm initial_syscall_ptr
        ros =
      .ok (.rel initial_syscall_ptr ::
            vm.builtin_runners.flatMap BuiltinRunner.initial_stack,
        [Arg.single (.int (stark_felt_to_felt
            call_entry_point.entry_point_selector)),
         Arg.seq (.rel initial_syscall_ptr ::
            vm.builtin_runners.flatMap BuiltinRunner.initial_stack),
         Arg.single (.int (Felt.ofNat call_entry_point.calldata.length)),
         Arg.single (.rel ⟨(vm.segments_count : Int), 0⟩)],
        vm1,
        ⟨ros.segments ++ [(⟨(vm.segments_count : Int), 0⟩,
          call_entry_point.calldata.length)]⟩) := by
  obtain ⟨m2, hm2⟩ := load_data_ok
    (call_entry_point.calldata.map (fun arg => .int (stark_felt_to_felt arg)))
    vm.memory ⟨(vm.segments_count : Int), 0⟩ 0
    (fun p hp => Or.inl (hwf p hp))
  refine ⟨{ memory := m2
            segment_used_sizes := vm.segment_used_sizes
            builtin_runners := vm.builtin_runners
            segments_count := vm.segments_count + 1 }, ?_⟩
  unfold prepare_call_arguments ReadOnlySegments.allocate
  simp only [VirtualMachine.add_memory_segment, hm2, List.length_map]

def c6vm : VirtualMachine :=
  { memory := [], segment_used_sizes := []
    builtin_runners := [⟨"range_check", 2⟩], segments_count := 3 }

def c6cep : CallEntryPoint :=
  { entry_point_selector := Felt.ofNat 11
    calldata := [Felt.ofNat 5, Felt.ofNat 6], storage_address := 0
    caller_address := 0 }

theorem prepare_call_arguments_spec_witness :
    (∀ p ∈ c6vm.memory,
      p.1.segment_index ≠ (c6vm.segments_count : Int)) ∧
    ∃ vm1, prepare_call_arguments c6cep c6vm ⟨9, 0⟩ ⟨[]⟩ =
      .ok (.rel ⟨9, 0⟩ ::
            c6vm.builtin_runners.flatMap BuiltinRunner.initial_stack,
        [Arg.single (.int (stark_felt_to_felt c6cep.entry_point_selector)),
         Arg.seq (.rel ⟨9, 0⟩ ::
            c6vm.builtin_runners.flatMap BuiltinRunner.initial_stack),
         Arg.single (.int (Felt.ofNat c6cep.calldata.length)),
         Arg.single (.rel ⟨(c6vm.segments_count : Int), 0⟩)],
        vm1,
        ⟨[] ++ [(⟨(c6vm.segments_count : Int), 0⟩,
          c6cep.calldata.length)]⟩) :=
  ⟨by decide,
   prepare_call_arguments_spec c6cep c6vm ⟨9, 0⟩ ⟨[]⟩ (by decide)⟩

/-- Claim C7: VisitedPcsSet insertion merges batches as a set union into the
class collection, deduplicating within and across inserts, and batches for
different classes leave each class collection exactly as inserting only its
own batches would. -/
theorem visited_pcs_set_insert_spec (m : VisitedPcsSet) (c d : ClassHash)
    (l1 l2 : List Nat) (hcd : c ≠ d) :
    (VisitedPcsSet.get
        (VisitedPcsSet.insert (VisitedPcsSet.insert m c l1) c l2) c =
      VisitedPcsSet.get m c ∪ l1.toFinset ∪ l2.toFinset) ∧
    (VisitedPcsSet.get
        (VisitedPcsSet.insert (VisitedPcsSet.insert m c l1) c l2) d =
      VisitedPcsSet.get m d) ∧
    (VisitedPcsSet.get
        (VisitedPcsSet.insert (VisitedPcsSet.insert m c l1) d l2) c =
      VisitedPcsSet.get (VisitedPcsSet.insert m c l1) c) ∧
    (VisitedPcsSet.get
        (VisitedPcsSet.insert (VisitedPcsSet.insert m c l1) d l2) d =
      VisitedPcsSet.get (VisitedPcsSet.insert m d l2) d) := by
  unfold VisitedPcsSet.get VisitedPcsSet.insert
  refine ⟨?_, ?_, ?_, ?_⟩ <;> simp [hcd, Ne.symm hcd]

theorem visited_pcs_set_insert_spec_witness :
    ((0 : ClassHash) ≠ 1) ∧
    ((VisitedPcsSet.get (VisitedPcsSet.insert
        (VisitedPcsSet.insert VisitedPcsSet.empty 0 [10, 20]) 0 [20, 30]) 0 =
      VisitedPcsSet.get VisitedPcsSet.empty 0 ∪
        ([10, 20] : List Nat).toFinset ∪ ([20, 30] : List Nat).toFinset) ∧
    (VisitedPcsSet.get (VisitedPcsSet.insert
        (VisitedPcsSet.insert VisitedPcsSet.empty 0 [10, 20]) 0 [20, 30]) 1 =
      VisitedPcsSet.get VisitedPcsSet.empty 1) ∧
    (VisitedPcsSet.get (VisitedPcsSet.insert
        (VisitedPcsSet.insert VisitedPcsSet.empty 0 [10, 20]) 1 [20, 30]) 0 =
      VisitedPcsSet.get
        (VisitedPcsSet.insert VisitedPcsSet.empty 0 [10, 20]) 0) ∧
    (VisitedPcsSet.get (VisitedPcsSet.insert
        (VisitedPcsSet.insert VisitedPcsSet.empty 0 [10, 20]) 1 [20, 30]) 1 =
      VisitedPcsSet.get
        (VisitedPcsSet.insert VisitedPcsSet.empty 1 [20, 30]) 1)) :=
  ⟨by decide,
   visited_pcs_set_insert_spec VisitedPcsSet.empty 0 1 [10, 20] [20, 30]
     (by decide)⟩

/-- Claim C8: execute_deployment registers the address-to-class binding in
the state store strictly before invoking the constructor through the
entry-point pipeline: the constructor receives exactly the updated store,
in which the binding for the deployed address is already present. -/
theorem execute_deployment_binds_before_constructor {α : Type}
    (execute_constructor_entry_point :
      State → ClassHash → ContractAddress → ContractAddress →
        List StarkFelt → α)
    (state : State) (class_hash : ClassHash)
    (deployed_contract_address deployer_address : ContractAddress)
    (constructor_calldata : List StarkFelt) :
    (execute_deployment execute_constructor_entry_point state class_hash
        deployed_contract_address deployer_address constructor_calldata =
      execute_constructor_entry_point
        (State.set_class_hash_at state deployed_contract_address class_hash)
        class_hash deployed_contract_address deployer_address
        constructor_calldata) ∧
    State.get_class_hash_at
        (State.set_class_hash_at state deployed_contract_address class_hash)
        deployed_contract_address = some class_hash := by
  constructor
  · rfl
  · unfold State.get_class_hash_at State.set_class_hash_at
    simp

/-- Claim C9: initialize_execution_context performs no mutation of the state
store — on every path, success or resolution error, the store it returns is
the one it was given — and on success the syscall pointer designates a
freshly allocated machine segment: offset zero, segment index one below the
final segment count, and no memory cell in that segment. -/
theorem initialize_execution_context_no_state_mutation
    (call_entry_point : CallEntryPoint) (class_hash : ClassHash)
    (state : State) :
    (initialize_execution_context call_entry_point class_hash state).2 =
        state ∧
      ∀ ctx, (initialize_execution_context call_entry_point class_hash
          state).1 = .ok ctx →
        ctx.initial_syscall_ptr.offset = 0 ∧
        ctx.initial_syscall_ptr.segment_index + 1 =
          (ctx.vm.segments_count : Int) ∧
        ∀ p ∈ ctx.vm.memory,
          p.1.segment_index ≠ ctx.initial_syscall_ptr.segment_index := by
  cases hcc : state.contract_classes class_hash with
  | none =>
    simp only [initialize_execution_context, hcc]
    exact ⟨trivial, fun ctx h => Except.noConfusion h⟩
  | some cls =>
    cases hr : resolve_entry_point_pc call_entry_point cls with
    | error e =>
      simp only [initialize_execution_context, hcc, hr]
      exact ⟨trivial, fun ctx h => Except.noConfusion h⟩
    | ok pc =>
      by_cases hv : cls.program_valid = true
      · simp only [initialize_execution_context, hcc, hr,
          VirtualMachine.add_memory_segment]
        rw [if_pos hv]
        refine ⟨rfl, fun ctx h => ?_⟩
        injection h with h2
        subst h2
        refine ⟨rfl, ?_, fun p hp => absurd hp (List.not_mem_nil p)⟩
        show (new_vm.segments_count : Int) + 1 =
          ((new_vm.segments_count + 1 : Nat) : Int)
        exact (Nat.cast_add_one _).symm
      · simp only [initialize_execution_context, hcc, hr]
        rw [if_neg hv]
        exact ⟨rfl, fun ctx h => Except.noConfusion h⟩

def c9class : ContractClass := ⟨[(Felt.ofNat 11, 42)], true⟩

def c9cep : CallEntryPoint := ⟨Felt.ofNat 11, [], 0, 0⟩

def c9state : State :=
  ⟨fun ch => if ch = 5 then some c9class else none, fun _ => none⟩

def c9ctx : ExecutionContext :=
  { vm := { memory := [], segment_used_sizes := []
            builtin_runners := make_builtin_runners all_builtin_names 2
            segments_count := 8 }
    syscall_handler := SyscallHintProcessor.new ⟨7, 0⟩
    initial_syscall_ptr := ⟨7, 0⟩
    entry_point_pc := 42 }

theorem initialize_execution_context_no_state_mutation_witness :
    ((initialize_execution_context c9cep 5 c9state).2 = c9state) ∧
    (c9ctx.initial_syscall_ptr.offset = 0 ∧
     c9ctx.initial_syscall_ptr.segment_index + 1 =
       (c9ctx.vm.segments_count : Int) ∧
     ∀ p ∈ c9ctx.vm.memory,
       p.1.segment_index ≠ c9ctx.initial_syscall_ptr.segment_index) :=
  ⟨(initialize_execution_context_no_state_mutation c9cep 5 c9state).1,
   (initialize_execution_context_no_state_mutation c9cep 5 c9state).2
     c9ctx rfl⟩

/-- Claim C10: converting a StarkFelt to the VM felt type and back is the
identity, and the conversion back never hits the out-of-range failure
branch for round-tripped inputs. -/
theorem stark_felt_round_trip (s : StarkFelt) :
    felt_to_stark_felt (stark_felt_to_felt s) = some s := by
  rcases s with ⟨v, hv⟩
  unfold felt_to_stark_felt stark_felt_to_felt
  simp [Nat.mod_eq_of_lt hv, hv]

end Blockifier
